import Mathlib

-- Shallow embedding of src/index.js (apidoc-plugin-jsonschema).
-- The core under verification is the pair createDocParameter (lines 70-89)
-- and iterateObjectReqursive (lines 91-159), plus extractArgumentsFromSchema
-- (lines 164-173).  File loading, $ref resolution and the apidoc hook glue
-- are out of scope (spec sections 1 and 6).

/-- A JavaScript value as it can occur in a dereferenced JSON-schema tree or
arise during the walk.  Objects are modelled as association lists in property
iteration order (the order JS `for..in` visits them); numbers are modelled as
integers (the claims' arithmetic is integral); `nan` represents the IEEE NaN
that JS arithmetic can produce (it cannot occur in a parsed schema). -/
inductive Jval where
  | undefined
  | null
  | nan
  | bool (b : Bool)
  | num (n : Int)
  | str (s : String)
  | arr (elems : List Jval)
  | obj (fields : List (String × Jval))

mutual
/-- Size of a value: a computable structural measure, used only to supply the
recursion fuel of the bounded functions below (any upper bound on nesting
depth would do; this one strictly exceeds it). -/
def Jval.size : Jval → Nat
  | .arr elems => 1 + Jval.sizeList elems
  | .obj fields => 1 + Jval.sizeFields fields
  | _ => 1
/-- Size of a list of values (see Jval.size). -/
def Jval.sizeList : List Jval → Nat
  | [] => 0
  | v :: rest => 1 + Jval.size v + Jval.sizeList rest
/-- Size of a field list (see Jval.size). -/
def Jval.sizeFields : List (String × Jval) → Nat
  | [] => 0
  | p :: rest => 1 + Jval.size p.2 + Jval.sizeFields rest
end

/-- JS truthiness: `undefined`, `null`, `NaN`, `false`, `0` and `""` are falsy;
every other value (including empty arrays and objects) is truthy. -/
def truthy : Jval → Bool
  | .undefined => false
  | .null => false
  | .nan => false
  | .bool b => b
  | .num n => n != 0
  | .str s => s != ""
  | .arr _ => true
  | .obj _ => true

/-- JS property access `v.k`: a missing key, or access on a non-object, yields
`undefined`.  (The source only reads schema-keyword names, which do not exist
on primitives or arrays.) -/
def getField (v : Jval) (k : String) : Jval :=
  match v with
  | .obj fields =>
    match fields.find? (fun p => p.1 == k) with
    | some p => p.2
    | none => .undefined
  | _ => .undefined

/-- JS `String(v)` / template-literal interpolation / `.toString()`, with a
fuel bound for the nested-array recursion (`Array.prototype.toString` joins
elements with `,`, rendering `null`/`undefined` elements as empty strings).
The wrapper toJsString supplies fuel exceeding any possible nesting depth, so
the fuel-0 branch is unreachable there. -/
def toJsStringF : Nat → Jval → String
  | 0, _ => ""
  | _ + 1, .undefined => "undefined"
  | _ + 1, .null => "null"
  | _ + 1, .nan => "NaN"
  | _ + 1, .bool b => if b then "true" else "false"
  | _ + 1, .num n => toString n
  | _ + 1, .str s => s
  | fuel + 1, .arr elems =>
    String.intercalate ","
      (elems.map (fun v =>
        match v with
        | .null => ""
        | .undefined => ""
        | w => toJsStringF fuel w))
  | _ + 1, .obj _ => "[object Object]"

/-- JS string conversion of a value (see toJsStringF). -/
def toJsString (v : Jval) : String := toJsStringF (Jval.size v) v

/-- JS `Array.prototype.join(sep)`: elements converted with toString,
`null`/`undefined` elements rendered as empty strings. -/
def jsArrayJoin (elems : List Jval) (sep : String) : String :=
  String.intercalate sep
    (elems.map (fun v =>
      match v with
      | .null => ""
      | .undefined => ""
      | w => toJsString w))

/-- Escape one character for a JSON string literal (quote and backslash; the
control-character escapes are not exercised by any schema in this
development). -/
def escapeChar (c : Char) : String :=
  if c = '"' then "\\\""
  else if c = '\\' then "\\\\"
  else String.singleton c

/-- JSON string literal for s, as JSON.stringify produces for strings. -/
def jsonQuote (s : String) : String :=
  "\"" ++ String.join (s.data.map escapeChar) ++ "\""

/-- JS `JSON.stringify(v)` with a fuel bound for the nested recursion.  Inside
arrays `undefined` serialises as `null`; object entries with `undefined`
values are omitted.  `JSON.stringify(undefined)` itself returns no string at
all in JS; that case is unreachable here because the source only stringifies
values that passed a truthiness test. -/
def jsonStringifyF : Nat → Jval → String
  | 0, _ => ""
  | _ + 1, .undefined => "undefined"
  | _ + 1, .null => "null"
  | _ + 1, .nan => "null"
  | _ + 1, .bool b => if b then "true" else "false"
  | _ + 1, .num n => toString n
  | _ + 1, .str s => jsonQuote s
  | fuel + 1, .arr elems =>
    "[" ++ String.intercalate ","
      (elems.map (fun v =>
        match v with
        | .undefined => "null"
        | w => jsonStringifyF fuel w)) ++ "]"
  | fuel + 1, .obj fields =>
    "\x7b" ++ String.intercalate ","
      ((fields.filter (fun p =>
          match p.2 with
          | .undefined => false
          | _ => true)).map
        (fun p => jsonQuote p.1 ++ ":" ++ jsonStringifyF fuel p.2)) ++ "\x7d"

/-- JSON.stringify of a value (see jsonStringifyF). -/
def jsonStringify (v : Jval) : String := jsonStringifyF (Jval.size v) v

/-- Decimal integer numeral (optionally signed) parsed from a character list;
none when any character is not a digit or the list is empty. -/
def digitsVal (cs : List Char) : Option Nat :=
  match cs with
  | [] => none
  | _ =>
    if cs.all Char.isDigit then
      some (cs.foldl (fun a c => a * 10 + (c.toNat - 48)) 0)
    else none

/-- JS ToNumber on a string (trimmed; empty string is 0).  Only integer
numerals are parsed; other numeric syntaxes map to none (NaN).  The walker
only reaches this through the contrived case of a non-numeric
`minimum`/`maximum`, which no theorem below exercises. -/
def strToNumber (s : String) : Option Int :=
  let t := s.trim
  if t = "" then some 0
  else
    match t.data with
    | '-' :: rest => (digitsVal rest).map (fun n => -(n : Int))
    | '+' :: rest => (digitsVal rest).map (fun n => (n : Int))
    | cs => (digitsVal cs).map (fun n => (n : Int))

/-- JS ToNumber coercion (none = NaN).  Arrays coerce through their string
form; plain objects coerce through "[object Object]", which is NaN. -/
def toNumber : Jval → Option Int
  | .undefined => none
  | .null => some 0
  | .nan => none
  | .bool b => some (if b then 1 else 0)
  | .num n => some n
  | .str s => strToNumber s
  | .arr elems => strToNumber (toJsString (.arr elems))
  | .obj _ => none

/-- JS `v + 1` as on line 115 of the source: string-valued operands (and
values whose ToPrimitive is a string) concatenate "1"; everything else goes
through ToNumber. -/
def jsPlusOne (v : Jval) : Jval :=
  match v with
  | .str s => .str (s ++ "1")
  | .arr elems => .str (toJsString (.arr elems) ++ "1")
  | .obj fields => .str (toJsString (.obj fields) ++ "1")
  | w =>
    match toNumber w with
    | some n => .num (n + 1)
    | none => .nan

/-- JS `v - 1` as on line 116 of the source: both operands coerce with
ToNumber. -/
def jsMinusOne (v : Jval) : Jval :=
  match toNumber v with
  | some n => .num (n - 1)
  | none => .nan

/-- The `minimum` local of the number/integer branch (source line 115):
`item.minimum ? (item.exclusiveMinimum ? item.minimum + 1 : item.minimum)
: null`. -/
def effectiveMinimum (item : Jval) : Jval :=
  if truthy (getField item "minimum") then
    if truthy (getField item "exclusiveMinimum") then
      jsPlusOne (getField item "minimum")
    else getField item "minimum"
  else .null

/-- The `maximum` local of the number/integer branch (source line 116):
`item.maximum ? (item.exclusiveMaximum ? item.maximum - 1 : item.maximum)
: null`. -/
def effectiveMaximum (item : Jval) : Jval :=
  if truthy (getField item "maximum") then
    if truthy (getField item "exclusiveMaximum") then
      jsMinusOne (getField item "maximum")
    else getField item "maximum"
  else .null

/-- lodash `_.padStart(s, n)` (source line 95) pads s on the LEFT with spaces
up to a total length of n; a string already at least n long is returned
unchanged. -/
def padStart (s : String) (n : Nat) : String :=
  if s.length < n then String.mk (List.replicate (n - s.length) ' ') ++ s
  else s

/-- The scrutinee of the `switch (item.type)` on source line 97: switch
compares with strict equality, so a non-string `type` value can never equal
one of the case labels "object" .. "array"; such values are collapsed to ""
here, which likewise matches no case. -/
def typeTag (item : Jval) : String :=
  match getField item "type" with
  | .str s => s
  | _ => ""

/-- JS substring test `s.includes(sub)` for strings. -/
def strContains (s sub : String) : Bool :=
  if sub = "" then true else (s.splitOn sub).length > 1

/-- JS `requiredItems.includes(name)` (source lines 108/123/135/148).  On an
array this is a SameValueZero membership test; on a string it is a substring
test; on any other receiver `.includes` is not a function and a TypeError is
thrown.  (The `undefined` case is settled before this point by the default
parameter `requiredItems = []`.) -/
def jsIncludes (req : Jval) (name : String) : Except String Bool :=
  match req with
  | .arr elems =>
    .ok (elems.any (fun v =>
      match v with
      | .str s => s == name
      | _ => false))
  | .str s => .ok (strContains s name)
  | _ => .error "TypeError: requiredItems.includes is not a function"

/-- `item.title || item.description` (source lines 110/125/137/150). -/
def jsTitleDesc (item : Jval) : Jval :=
  if truthy (getField item "title") then getField item "title"
  else getField item "description"

/-- The own enumerable string-keyed properties a JS `for..in` loop visits, in
iteration order: an object's entries, or an array's elements keyed by their
indices.  Primitives, `null` and `undefined` yield no iterations.  (A string
receiver would iterate its character indices, but every such character item
has no `type` field and is skipped by the dispatch, so modelling it as empty
is observationally identical.)  The `obj.hasOwnProperty(name)` guard on
source line 93 always holds for these keys. -/
def ownFields : Jval → List (String × Jval)
  | .obj fields => fields
  | .arr elems => elems.enum.map (fun p => (toString p.1, p.2))
  | _ => []

/-- createDocParameter (source lines 70-89).  `name` and `type` are always
strings at the call sites; the remaining data arrives as raw JS values.  The
only fallible step is `allowedValues.filter` on a truthy non-string
non-array receiver (a TypeError in JS).  Note the filter callback on line 80
returns a quoted string for string members and the member itself otherwise,
so it keeps every string member (a nonempty quoted string is truthy) but
drops falsy non-string members such as 0 and false. -/
def createDocParameter (name type : String) (sizeMin sizeMax allowedValues : Jval)
    (isRequired : Bool) (defaultValue description : Jval) : Except String String :=
  let type1 :=
    if truthy sizeMin || truthy sizeMax then
      type ++ "\x7b" ++ (if truthy sizeMin then toJsString sizeMin else "")
        ++ ".." ++ (if truthy sizeMax then toJsString sizeMax else "") ++ "\x7d"
    else type
  let typeRes : Except String String :=
    if truthy allowedValues then
      match allowedValues with
      | .str s => .ok (type1 ++ "=\"" ++ s ++ "\"")
      | .arr elems =>
        .ok (type1 ++ "=\""
          ++ jsArrayJoin (elems.filter (fun v =>
                match v with
                | .str _ => true
                | w => truthy w)) ","
          ++ "\"")
      | _ => .error "TypeError: allowedValues.filter is not a function"
    else .ok type1
  match typeRes with
  | .error e => .error e
  | .ok type2 =>
    let name1 :=
      if truthy defaultValue then name ++ "=" ++ jsonStringify defaultValue
      else name
    let name2 := if isRequired then name1 else "[" ++ name1 ++ "]"
    .ok ("\x7b" ++ type2 ++ "\x7d " ++ name2 ++ " "
      ++ (if truthy description then toJsString description else ""))

/-- The type of one level of the walker: accumulator, `obj` argument, depth,
`requiredItems` argument. -/
abbrev Walk := List String → Jval → Nat → Jval → Except String (List String)

/-- The `item.items.forEach` loop of the array branch (source lines 153-155):
each member is passed to the walker itself (as its `obj` parameter) at
`depth + 1` with the `requiredItems` default of `[]`; the accumulator threads
through, and a thrown error propagates out of the loop. -/
def goItems (child : Walk) (depth : Nat) : List String → List Jval → Except String (List String)
  | acc, [] => .ok acc
  | acc, v :: rest =>
    match child acc v (depth + 1) (.arr []) with
    | .error e => .error e
    | .ok acc2 => goItems child depth acc2 rest

/-- Outcome of processing one property of the `for..in` loop: either the loop
continues with the remaining properties (with the accumulator as mutated so
far), or the whole iterateObjectReqursive call ends right now — with a thrown
error, or with the early `return accumulator.push(...)` of source line 142. -/
inductive StepRes where
  | cont (acc : List String)
  | halt (res : Except String (List String))

/-- One `accumulator.push(createDocParameter(..., requiredItems.includes(name),
...)); break` of the switch (source lines 102-111, 117-126, 129-138): the
requiredness test is evaluated first (it can throw), then the formatter (it
can throw); otherwise the descriptor is appended and the loop continues. -/
def pushStep (acc : List String) (isReqRes : Except String Bool)
    (mk : Bool → Except String String) : StepRes :=
  match isReqRes with
  | .error e => .halt (.error e)
  | .ok isReq =>
    match mk isReq with
    | .error e => .halt (.error e)
    | .ok d => .cont (acc ++ [d])

/-- Like pushStep, but for `return accumulator.push(...)` (source line 142):
the push ends the whole loop. -/
def returnStep (acc : List String) (isReqRes : Except String Bool)
    (mk : Bool → Except String String) : StepRes :=
  match isReqRes with
  | .error e => .halt (.error e)
  | .ok isReq =>
    match mk isReq with
    | .error e => .halt (.error e)
    | .ok d => .halt (.ok (acc ++ [d]))

/-- The `switch (item.type)` body of iterateObjectReqursive (source lines
95-157) for one property, parameterised by the walker `child` used for
descending one level (the recursive calls on lines 99 and 154).  Faithful
points worth noting: the items-less array branch RETURNS out of the whole
loop after its push (line 142); a property whose `type` matches no case falls
through the switch and is skipped. -/
def stepField (child : Walk) (depth : Nat) (req : Jval) (acc : List String)
    (name : String) (item : Jval) : StepRes :=
  let paddedName := padStart name depth
  let t := typeTag item
  if t = "object" then
    match child acc (getField item "properties") (depth + 1) (getField item "required") with
    | .error e => .halt (.error e)
    | .ok acc2 => .cont acc2
  else if t = "string" then
    let fmt := getField item "format"
    let pat := getField item "pattern"
    let typeExpr :=
      if truthy fmt || truthy pat then
        "string / " ++ (if truthy fmt then toJsString fmt else toJsString pat)
      else "string"
    pushStep acc (jsIncludes req name)
      (fun isReq => createDocParameter paddedName typeExpr (getField item "minLength")
        (getField item "maxLength") (getField item "enum") isReq
        (getField item "default") (jsTitleDesc item))
  else if t = "number" ∨ t = "integer" then
    pushStep acc (jsIncludes req name)
      (fun isReq => createDocParameter paddedName t (effectiveMinimum item)
        (effectiveMaximum item) (getField item "enum") isReq
        (getField item "default") (jsTitleDesc item))
  else if t = "boolean" then
    pushStep acc (jsIncludes req name)
      (fun isReq => createDocParameter paddedName "boolean" .null .null .null isReq
        (getField item "default") (jsTitleDesc item))
  else if t = "array" then
    let itemsVal := getField item "items"
    if truthy itemsVal then
      match itemsVal with
      | .arr elems =>
        match goItems child depth acc elems with
        | .error e => .halt (.error e)
        | .ok acc2 => .cont acc2
      | _ => .halt (.error "TypeError: item.items.forEach is not a function")
    else
      returnStep acc (jsIncludes req name)
        (fun isReq => createDocParameter paddedName "array" (getField item "minItems")
          (getField item "maxItems") .null isReq
          (getField item "default") (jsTitleDesc item))
  else .cont acc

/-- The `for..in` loop of iterateObjectReqursive (source lines 92-158) over an
explicit field list: each property is processed by stepField; a halting step
(thrown error, or the early return of the items-less array branch) ends the
loop, so the remaining properties are not visited. -/
def goFields (child : Walk) (depth : Nat) (req : Jval) : List String → List (String × Jval) → Except String (List String)
  | acc, [] => .ok acc
  | acc, (name, item) :: rest =>
    match stepField child depth req acc name item with
    | .cont acc2 => goFields child depth req acc2 rest
    | .halt r => r

/-- iterateObjectReqursive as a function of a recursion-depth fuel: one unit
is consumed per level of descent; within a level, fields are processed by
goFields with the one-level-deeper walker.  The JS default parameters
(`obj = {}`, `requiredItems = []`) apply exactly when the argument is
`undefined`, which for `obj` changes nothing observable (both give an empty
iteration).  The fuel-0 branch is unreachable for the fuel supplied by
iterateObjectReqursive below, since every descent moves to a strictly smaller
subtree of `obj`. -/
def walkFuel : Nat → Walk
  | 0 => fun _ _ _ _ => .error "out of fuel"
  | fuel + 1 => fun acc obj depth req =>
    goFields (walkFuel fuel) depth
      (match req with
       | .undefined => .arr []
       | r => r)
      acc (ownFields obj)

/-- iterateObjectReqursive (source lines 91-159): the mutable accumulator is
threaded explicitly; the result is the final accumulator contents, or the
thrown error.  (On line 142 the JS function returns `accumulator.push(...)`'s
numeric result, but every caller ignores the return value; the observable
state is the accumulator, which is what this embedding returns.) -/
def iterateObjectReqursive (acc : List String) (obj : Jval) (depth : Nat) (req : Jval) : Except String (List String) :=
  walkFuel (Jval.size obj + 1) acc obj depth req

/-- extractArgumentsFromSchema (source lines 164-173): rejects `allOf` before
any walking happens; otherwise walks the root's `properties` with a fresh
accumulator, depth 0, and the `requiredItems` default (so top-level
properties are never marked required). -/
def extractArgumentsFromSchema (schema : Jval) : Except String (List String) :=
  if truthy (getField schema "allOf") then
    .error "2DO: merge properties in recursive order"
  else
    iterateObjectReqursive [] (getField schema "properties") 0 .undefined

/-- A root schema (type object) with the given property mapping. -/
def mkSchema (ps : List (String × Jval)) : Jval := .obj [("properties", .obj ps)]

/-- Schema for claim C1: an `array` property whose `items` is a sequence
holding one object schema with a required string field `x`. -/
def c1Schema : Jval := mkSchema [("arr", .obj [("type", .str "array"),
  ("items", .arr [.obj [("type", .str "object"),
    ("properties", .obj [("x", .obj [("type", .str "string")])]),
    ("required", .arr [.str "x"])]])])]

/-- Schema for claim C2: an items-less `array` property followed by a sibling
`string` property. -/
def c2Schema : Jval := mkSchema
  [("a", .obj [("type", .str "array"), ("minItems", .num 1)]),
   ("b", .obj [("type", .str "string")])]

/-- Schema for claim C3, the spec's own example: a nested object `a` with a
required string field `b`. -/
def c3Schema : Jval := mkSchema [("a", .obj [("type", .str "object"),
  ("properties", .obj [("b", .obj [("type", .str "string")])]),
  ("required", .arr [.str "b"])])]

/-- The number node of claim C4's example: minimum 5 exclusive, maximum 10
exclusive. -/
def c4Node : Jval := .obj [("type", .str "number"),
  ("minimum", .num 5), ("exclusiveMinimum", .bool true),
  ("maximum", .num 10), ("exclusiveMaximum", .bool true)]

/-- Schema for claim C4 holding c4Node as its only property. -/
def c4Schema : Jval := mkSchema [("n", c4Node)]

/-- Schema for claim C6: an `integer` property with `enum: [0, 1, 2]`. -/
def c6Schema : Jval := mkSchema [("e", .obj [("type", .str "integer"),
  ("enum", .arr [.num 0, .num 1, .num 2])])]

/-- Schema for claim C7's example: an items-less `array` with minItems 1 and
maxItems 3. -/
def c7Schema : Jval := mkSchema [("a", .obj [("type", .str "array"),
  ("minItems", .num 1), ("maxItems", .num 3)])]

/-- Schema for claim C8: a root with `allOf` (and a property mapping that
would otherwise produce a descriptor). -/
def c8Schema : Jval := .obj [("allOf", .arr []),
  ("properties", .obj [("x", .obj [("type", .str "string")])])]

/-- A property node whose `type` matches none of the switch cases. -/
def c10Node : Jval := .obj [("type", .str "banana")]

/-- Schema for claim C10: a recognised property, then one with an unknown
`type`, then another recognised property. -/
def c10Schema : Jval := mkSchema [("a", .obj [("type", .str "string")]),
  ("weird", c10Node),
  ("b", .obj [("type", .str "boolean")])]

-- Helper lemmas ------------------------------------------------------------

/-- The items loop never reads the accumulator it starts from: its result is
that accumulator followed by a delta that depends only on the members,
provided the walker used for descents has the same property. -/
theorem goItems_append (child : Walk)
    (hchild : ∀ acc obj d r, child acc obj d r = (child [] obj d r).map (fun t => acc ++ t)) :
    ∀ (elems : List Jval) (depth : Nat) (acc : List String),
      goItems child depth acc elems = (goItems child depth [] elems).map (fun t => acc ++ t) := by
  intro elems
  induction elems with
  | nil => intro depth acc; simp [goItems, Except.map]
  | cons v rest ih =>
    intro depth acc
    simp only [goItems]
    rw [hchild acc v (depth + 1) (.arr [])]
    cases hc : child [] v (depth + 1) (.arr []) with
    | error e => simp [Except.map]
    | ok t =>
      simp only [Except.map]
      rw [ih depth (acc ++ t), ih depth t]
      cases goItems child depth [] rest <;> simp [Except.map, List.append_assoc]

/-- pushStep only appends to the accumulator it is given. -/
theorem pushStep_append (acc : List String) (r : Except String Bool)
    (mk : Bool → Except String String) :
    pushStep acc r mk =
      match pushStep [] r mk with
      | .cont t => .cont (acc ++ t)
      | .halt (.ok t) => .halt (.ok (acc ++ t))
      | .halt (.error e) => .halt (.error e) := by
  cases r with
  | error e => rfl
  | ok isReq =>
    simp only [pushStep]
    cases hmk : mk isReq <;> simp

/-- returnStep only appends to the accumulator it is given. -/
theorem returnStep_append (acc : List String) (r : Except String Bool)
    (mk : Bool → Except String String) :
    returnStep acc r mk =
      match returnStep [] r mk with
      | .cont t => .cont (acc ++ t)
      | .halt (.ok t) => .halt (.ok (acc ++ t))
      | .halt (.error e) => .halt (.error e) := by
  cases r with
  | error e => rfl
  | ok isReq =>
    simp only [returnStep]
    cases hmk : mk isReq <;> simp

/-- One switch step only appends to the accumulator it is given (assuming the
same of the walker used for descents). -/
theorem stepField_append (child : Walk)
    (hchild : ∀ acc obj d r, child acc obj d r = (child [] obj d r).map (fun t => acc ++ t))
    (depth : Nat) (req : Jval) (acc : List String) (name : String) (item : Jval) :
    stepField child depth req acc name item =
      match stepField child depth req [] name item with
      | .cont t => .cont (acc ++ t)
      | .halt (.ok t) => .halt (.ok (acc ++ t))
      | .halt (.error e) => .halt (.error e) := by
  simp only [stepField]
  by_cases h1 : typeTag item = "object"
  · rw [if_pos h1, if_pos h1]
    rw [hchild acc (getField item "properties") (depth + 1) (getField item "required")]
    cases child [] (getField item "properties") (depth + 1) (getField item "required") <;>
      simp [Except.map]
  · rw [if_neg h1, if_neg h1]
    by_cases h2 : typeTag item = "string"
    · rw [if_pos h2, if_pos h2]
      exact pushStep_append acc _ _
    · rw [if_neg h2, if_neg h2]
      by_cases h3 : typeTag item = "number" ∨ typeTag item = "integer"
      · rw [if_pos h3, if_pos h3]
        exact pushStep_append acc _ _
      · rw [if_neg h3, if_neg h3]
        by_cases h4 : typeTag item = "boolean"
        · rw [if_pos h4, if_pos h4]
          exact pushStep_append acc _ _
        · rw [if_neg h4, if_neg h4]
          by_cases h5 : typeTag item = "array"
          · rw [if_pos h5, if_pos h5]
            by_cases h6 : truthy (getField item "items") = true
            · rw [if_pos h6, if_pos h6]
              cases hit : getField item "items" <;> try rfl
              rename_i elems
              dsimp only
              rw [goItems_append child hchild elems depth acc]
              cases goItems child depth [] elems <;> simp [Except.map]
            · rw [if_neg h6, if_neg h6]
              exact returnStep_append acc _ _
          · rw [if_neg h5, if_neg h5]
            simp

/-- The property loop only appends to the accumulator it is given. -/
theorem goFields_append (child : Walk)
    (hchild : ∀ acc obj d r, child acc obj d r = (child [] obj d r).map (fun t => acc ++ t)) :
    ∀ (fs : List (String × Jval)) (depth : Nat) (req : Jval) (acc : List String),
      goFields child depth req acc fs = (goFields child depth req [] fs).map (fun t => acc ++ t) := by
  intro fs
  induction fs with
  | nil => intro depth req acc; simp [goFields, Except.map]
  | cons p rest ih =>
    intro depth req acc
    obtain ⟨name, item⟩ := p
    simp only [goFields]
    rw [stepField_append child hchild depth req acc name item]
    cases hs : stepField child depth req [] name item with
    | cont t =>
      dsimp only
      rw [ih depth req (acc ++ t), ih depth req t]
      cases goFields child depth req [] rest <;> simp [Except.map, List.append_assoc]
    | halt r =>
      cases r <;> simp [Except.map]

/-- The walker (at any recursion budget) only appends to the accumulator it is
given: the descriptors it produces depend only on the schema, the depth and
the required set, never on previously accumulated output. -/
theorem walkFuel_append :
    ∀ (fuel : Nat) (acc : List String) (obj : Jval) (depth : Nat) (req : Jval),
      walkFuel fuel acc obj depth req = (walkFuel fuel [] obj depth req).map (fun t => acc ++ t) := by
  intro fuel
  induction fuel with
  | zero => intro acc obj depth req; rfl
  | succ f ih =>
    intro acc obj depth req
    simp only [walkFuel]
    exact goFields_append (walkFuel f) ih (ownFields obj) depth _ acc

/-- A property whose `type` matches none of the six switch cases produces a
step that just continues with the accumulator unchanged. -/
theorem stepField_skip (child : Walk) (depth : Nat) (req : Jval) (acc : List String)
    (name : String) (item : Jval)
    (h1 : typeTag item ≠ "object") (h2 : typeTag item ≠ "string")
    (h3 : typeTag item ≠ "number") (h4 : typeTag item ≠ "integer")
    (h5 : typeTag item ≠ "boolean") (h6 : typeTag item ≠ "array") :
    stepField child depth req acc name item = .cont acc := by
  simp only [stepField]
  rw [if_neg h1, if_neg h2, if_neg (by simp [h3, h4]), if_neg h5, if_neg h6]

-- Claim theorems -----------------------------------------------------------

/-- Claim C1 (evidence of the code bug): on an `array` property whose `items`
is a schema sequence, the walker does recurse into each member at depth+1
with an empty required set, but it passes the member schema itself where a
property mapping is expected, so the member's keys (`type`, `properties`,
`required`) are iterated as properties, none matches a switch case, and NO
descriptor for the member schema's fields is produced: the whole run yields
an empty descriptor list, where the claim promises a descriptor for the
required string field `x`. -/
theorem c1_items_member_walk : extractArgumentsFromSchema c1Schema = .ok [] := rfl

/-- Claim C2 (evidence of the code bug): processing the items-less `array`
property `a` executes `return accumulator.push(...)`, which aborts the whole
property loop, so the later sibling `b` is never visited: the run yields only
the descriptor of `a`, where the claim promises every property is visited. -/
theorem c2_array_leaf_early_return :
    extractArgumentsFromSchema c2Schema = .ok ["\x7barray\x7b1..\x7d\x7d [a] "] := rfl

/-- Claim C3 (counterexample): in the claim's own example, the nested
property `b` sits at depth 1, and the claim asserts its name is left-padded
by exactly one character (" b"); in fact lodash padStart pads to a total
LENGTH of `depth`, so the one-character name `b` receives no padding at all,
and the sole descriptor produced renders the unpadded name. -/
theorem c3_counterexample :
    padStart "b" 1 = "b" ∧ ("b" : String) ≠ " b" ∧
    extractArgumentsFromSchema c3Schema = .ok ["\x7bstring\x7d b "] :=
  ⟨rfl, by decide, rfl⟩

/-- Claim C3 (amended): the property name is left-padded with spaces to a
total width of `depth` characters — that is, by `depth - length(name)`
characters when the name is shorter than the depth, and not at all otherwise;
the claim's example therefore yields exactly one descriptor, for `b`, marked
required, with an unpadded name. -/
theorem c3_pad_to_width :
    (∀ (name : String) (depth : Nat),
      padStart name depth = String.mk (List.replicate (depth - name.length) ' ') ++ name) ∧
    extractArgumentsFromSchema c3Schema = .ok ["\x7bstring\x7d b "] := by
  constructor
  · intro name depth
    by_cases h : name.length < depth
    · rw [padStart, if_pos h]
    · rw [padStart, if_neg h]
      rw [Nat.sub_eq_zero_of_le (Nat.le_of_not_lt h)]
      rfl
  · rfl

/-- Claim C4: on a number/integer node whose `minimum` is a (truthy, i.e.
nonzero — the source tests bounds by truthiness) number and whose
`exclusiveMinimum` is truthy, the effective lower bound handed to the
formatter is `minimum + 1`; symmetrically the effective upper bound is
`maximum - 1`; and the claim's concrete example (minimum 5 exclusive,
maximum 10 exclusive) renders bounds 6 and 9. -/
theorem c4_exclusive_bounds :
    (∀ (item : Jval) (mn : Int), getField item "minimum" = .num mn → mn ≠ 0 →
      truthy (getField item "exclusiveMinimum") = true →
      effectiveMinimum item = .num (mn + 1)) ∧
    (∀ (item : Jval) (mx : Int), getField item "maximum" = .num mx → mx ≠ 0 →
      truthy (getField item "exclusiveMaximum") = true →
      effectiveMaximum item = .num (mx - 1)) ∧
    extractArgumentsFromSchema c4Schema = .ok ["\x7bnumber\x7b6..9\x7d\x7d [n] "] := by
  refine ⟨?_, ?_, rfl⟩
  · intro item mn h hmn hex
    simp only [effectiveMinimum, hex, h]
    simp [truthy, jsPlusOne, toNumber, hmn]
  · intro item mx h hmx hex
    simp only [effectiveMaximum, hex, h]
    simp [truthy, jsMinusOne, toNumber, hmx]

/-- Witness for claim C4 at the concrete node of the claim's example. -/
theorem c4_exclusive_bounds_witness :
    effectiveMinimum c4Node = .num (5 + 1) ∧ effectiveMaximum c4Node = .num (10 - 1) :=
  ⟨c4_exclusive_bounds.1 c4Node 5 rfl (by decide) rfl,
   c4_exclusive_bounds.2.1 c4Node 10 rfl (by decide) rfl⟩

/-- Claim C5: in the formatter, a truthy default suffixes the name with `=`
followed by its JSON literal, and the name-plus-default is wrapped in
brackets exactly when the field is not required (the default suffix is
applied before the bracket wrap); with no (truthy) default the bare name is
wrapped under the same condition.  (The source tests the default by
truthiness, per the spec's falsy-is-absent convention.) -/
theorem c5_default_then_bracket :
    ∀ (name type : String) (isRequired : Bool) (defaultValue description : Jval),
      (truthy defaultValue = true →
        createDocParameter name type .null .null .null isRequired defaultValue description =
          .ok ("\x7b" ++ type ++ "\x7d "
            ++ (if isRequired then name ++ "=" ++ jsonStringify defaultValue
               else "[" ++ (name ++ "=" ++ jsonStringify defaultValue) ++ "]")
            ++ " " ++ (if truthy description then toJsString description else ""))) ∧
      (truthy defaultValue = false →
        createDocParameter name type .null .null .null isRequired defaultValue description =
          .ok ("\x7b" ++ type ++ "\x7d "
            ++ (if isRequired then name else "[" ++ name ++ "]")
            ++ " " ++ (if truthy description then toJsString description else ""))) := by
  intro name type isReq dflt desc
  constructor <;> intro h <;>
    (simp only [createDocParameter, h]; simp [truthy, String.append_assoc])

/-- Witness for claim C5: a non-required field with default "x" renders its
name segment as the claim's example demands. -/
theorem c5_default_then_bracket_witness :
    createDocParameter "name" "string" .null .null .null false (.str "x") .undefined =
      .ok "\x7bstring\x7d [name=\"x\"] " := by
  have h := (c5_default_then_bracket "name" "string" false (.str "x") .undefined).1 rfl
  exact h.trans (by rfl)

/-- Claim C6 (evidence of the code bug): an `integer` leaf with
`enum: [0, 1, 2]` renders the allowed-values suffix `="1,2"` — the member 0
is dropped, because the filter callback of source line 80 (which returns a
quoted string for string members and the member itself otherwise, i.e. a map
operation) is used as a filter predicate, discarding falsy non-string
members; the claim promises every member appears. -/
theorem c6_enum_filter_eval :
    extractArgumentsFromSchema c6Schema = .ok ["\x7binteger=\"1,2\"\x7d [e] "] := rfl

/-- Claim C7: with neither size bound truthy the rendered type expression
carries no brace suffix at all; with at least one truthy bound the suffix
appears with the falsy bound omitted but the braces and `..` kept (the source
tests bounds by truthiness, per the spec's falsy-is-absent convention); and
the claim's example (array, minItems 1, maxItems 3) renders the 1..3 suffix. -/
theorem c7_size_suffix :
    (∀ (name type : String) (sizeMin sizeMax : Jval) (isRequired : Bool) (description : Jval),
      (truthy sizeMin = false → truthy sizeMax = false →
        createDocParameter name type sizeMin sizeMax .null isRequired .undefined description =
          .ok ("\x7b" ++ type ++ "\x7d "
            ++ (if isRequired then name else "[" ++ name ++ "]")
            ++ " " ++ (if truthy description then toJsString description else ""))) ∧
      ((truthy sizeMin || truthy sizeMax) = true →
        createDocParameter name type sizeMin sizeMax .null isRequired .undefined description =
          .ok ("\x7b" ++ type ++ "\x7b"
            ++ (if truthy sizeMin then toJsString sizeMin else "") ++ ".."
            ++ (if truthy sizeMax then toJsString sizeMax else "") ++ "\x7d" ++ "\x7d "
            ++ (if isRequired then name else "[" ++ name ++ "]")
            ++ " " ++ (if truthy description then toJsString description else "")))) ∧
    extractArgumentsFromSchema c7Schema = .ok ["\x7barray\x7b1..3\x7d\x7d [a] "] := by
  refine ⟨?_, rfl⟩
  intro name type smin smax isReq desc
  constructor
  · intro hmin hmax
    simp only [createDocParameter, hmin, hmax]
    simp [truthy, String.append_assoc]
  · intro hor
    simp only [createDocParameter, hor]
    simp [truthy, String.append_assoc]

/-- Witness for claim C7 at the concrete bounds of the claim's example. -/
theorem c7_size_suffix_witness :
    createDocParameter "a" "array" (.num 1) (.num 3) .null false .undefined .undefined =
      .ok "\x7barray\x7b1..3\x7d\x7d [a] " := by
  have h := (c7_size_suffix.1 "a" "array" (.num 1) (.num 3) false .undefined).2 rfl
  exact h.trans (by rfl)

/-- Claim C8: any schema whose root carries a truthy `allOf` (any array value
is truthy) makes the transformation fail with the composition-unsupported
error before the walker ever runs, so the failed call carries no descriptors
at all — there is no partial output. -/
theorem c8_allOf_rejected :
    ∀ (schema : Jval), truthy (getField schema "allOf") = true →
      extractArgumentsFromSchema schema = .error "2DO: merge properties in recursive order" := by
  intro schema h
  simp [extractArgumentsFromSchema, h]

/-- Witness for claim C8: a root with `allOf: []` (and a property mapping
that would otherwise produce a descriptor) fails with zero descriptors. -/
theorem c8_allOf_rejected_witness :
    extractArgumentsFromSchema c8Schema = .error "2DO: merge properties in recursive order" :=
  c8_allOf_rejected c8Schema rfl

/-- Claim C9: the transformation is a pure function of the schema tree —
running it twice on the same tree gives identical results — and the walker
never reads the accumulator it is handed (its output is the input accumulator
plus a delta depending only on the schema, depth and required set), so a
traversal's output cannot leak into another's.  Non-mutation of the schema
holds by construction of the embedding: the source never assigns to any
schema node, which is why the walker could be translated as a pure function
of the (immutable) schema argument. -/
theorem c9_pure_deterministic :
    (∀ schema : Jval, extractArgumentsFromSchema schema = extractArgumentsFromSchema schema) ∧
    (∀ (fuel : Nat) (acc : List String) (obj : Jval) (depth : Nat) (req : Jval),
      walkFuel fuel acc obj depth req = (walkFuel fuel [] obj depth req).map (fun t => acc ++ t)) :=
  ⟨fun _ => rfl, walkFuel_append⟩

/-- Claim C10: a property whose `type` is absent, non-string, or not one of
the six recognised tags is silently skipped — removing it from the property
list leaves the traversal's outcome (descriptors and error behaviour alike)
unchanged, at every recursion level and with any walker used for descents;
concretely, a schema with such a property between two recognised ones yields
exactly the two recognised descriptors and no error. -/
theorem c10_unknown_type_skipped :
    (∀ (child : Walk) (depth : Nat) (req : Jval) (ps1 ps2 : List (String × Jval))
        (name : String) (v : Jval),
      typeTag v ≠ "object" → typeTag v ≠ "string" → typeTag v ≠ "number" →
      typeTag v ≠ "integer" → typeTag v ≠ "boolean" → typeTag v ≠ "array" →
      ∀ acc, goFields child depth req acc (ps1 ++ (name, v) :: ps2) =
        goFields child depth req acc (ps1 ++ ps2)) ∧
    extractArgumentsFromSchema c10Schema = .ok ["\x7bstring\x7d [a] ", "\x7bboolean\x7d [b] "] := by
  refine ⟨?_, rfl⟩
  intro child depth req ps1 ps2 name v h1 h2 h3 h4 h5 h6
  induction ps1 with
  | nil =>
    intro acc
    simp only [List.nil_append, goFields]
    rw [stepField_skip child depth req acc name v h1 h2 h3 h4 h5 h6]
  | cons p rest ih =>
    intro acc
    obtain ⟨m, w⟩ := p
    simp only [List.cons_append, goFields]
    cases stepField child depth req acc m w <;> simp [ih]

/-- Witness for claim C10: dropping the bogus-typed property `weird` from
between two recognised properties leaves the traversal unchanged. -/
theorem c10_unknown_type_skipped_witness :
    goFields (walkFuel 1) 0 (.arr []) []
      ([("a", Jval.obj [("type", Jval.str "string")])]
        ++ ("weird", c10Node) :: [("b", Jval.obj [("type", Jval.str "boolean")])]) =
    goFields (walkFuel 1) 0 (.arr []) []
      ([("a", Jval.obj [("type", Jval.str "string")])]
        ++ [("b", Jval.obj [("type", Jval.str "boolean")])]) :=
  c10_unknown_type_skipped.1 (walkFuel 1) 0 (.arr []) _ _ "weird" c10Node
    (by decide) (by decide) (by decide) (by decide) (by decide) (by decide) []
